import Mathlib

/-!
Verification of the itinerary segmentation and normalization engine of the
AGENCY repository.  The definitions below are a shallow embedding of the
per-row processing logic of `src/TRIPJACK/tripjack.py`,
`src/BLUESTAR/bluestar.py` and `src/TBO/tbo3.py`.

Timestamps are modelled as integers counting seconds since the Unix epoch
(`TRY_CAST(... AS TIMESTAMP)` values; pandas `NaT` becomes `none`).
Python/SQL strings are Lean `String`s with explicit character-level
implementations of `strip`, `upper`, `isdigit`, `rstrip('0')` and of the
two concrete regular expressions used by the scripts.
-/

/-- Timestamps: seconds since the Unix epoch. -/
abbrev Ts := Int

/-- Calendar-day truncation used by `dt.date()`: floor-division by 86400 s. -/
def dayOf (t : Ts) : Int := Int.fdiv t 86400

/-- ASCII whitespace stripped by Python `str.strip()` / SQL `TRIM`. -/
def isSpaceChar (c : Char) : Bool := c = ' ' || c = '\t' || c = '\n' || c = '\r'

/-- Strip leading and trailing whitespace from a character list. -/
def stripChars (l : List Char) : List Char :=
  ((l.dropWhile isSpaceChar).reverse.dropWhile isSpaceChar).reverse

/-- Python `str.strip()` / SQL `TRIM`. -/
def pyStrip (s : String) : String := ⟨stripChars s.data⟩

/-- Python `str.upper()` / SQL `UPPER` (ASCII). -/
def pyUpper (s : String) : String := ⟨s.data.map Char.toUpper⟩

/-- SQL `replace(s, ' ', '')`: remove every space character. -/
def removeSpaces (s : String) : String := ⟨s.data.filter (fun c => c ≠ ' ')⟩

/-- Python `str.isdigit()` (ASCII digits; empty string is not a digit string). -/
def isDigitStr (s : String) : Bool := !s.data.isEmpty && s.data.all Char.isDigit

/-- Python `str.isalpha()` (ASCII letters; empty string is not alphabetic). -/
def isAlphaStr (s : String) : Bool := !s.data.isEmpty && s.data.all Char.isAlpha

/-- Python `str.rstrip("0")`: drop trailing zero characters. -/
def rstripZeros (s : String) : String := ⟨(s.data.reverse.dropWhile (· = '0')).reverse⟩

/-- A character in the class `[A-Z]`. -/
def isUpperAlpha (c : Char) : Bool := 'A' ≤ c && c ≤ 'Z'

/-- A character in the class `[A-Z0-9]`. -/
def isAlnumUpper (c : Char) : Bool := isUpperAlpha c || c.isDigit

/-- Does `l` split as `k` characters of `[A-Z0-9]` followed by one or more
digits?  Used to decide the full match `^[A-Z0-9]{2,3}\d+$` at `k = 2, 3`. -/
def shapeAt (l : List Char) (k : Nat) : Bool :=
  decide (k < l.length) && (l.take k).all isAlnumUpper && (l.drop k).all Char.isDigit

/-- Full match of `^[A-Z0-9]{2,3}\d+$` (tripjack.py line 194 /
bluestar.py line 257): a 2- or 3-character alphanumeric code followed by at
least one digit.  Since digits are themselves in `[A-Z0-9]`, the regex
matches exactly when one of the two splits works. -/
def shapeMatch (l : List Char) : Bool := shapeAt l 2 || shapeAt l 3

/-- `is_valid_flightno` of tripjack.py (lines 168-196), string part: the
function first rejects when `fn` or `dt` is NA; this is the remainder,
operating on the flight-number string. -/
def isValidFlightnoStr (fn0 : String) : Bool :=
  let f := pyStrip fn0
  if f.data.isEmpty then false
  else if isDigitStr f then false
  else if decide (8 < f.data.length) then false
  else
    let stripped := rstripZeros f
    if stripped.data.isEmpty || isAlphaStr stripped then false
    else shapeMatch (pyUpper (pyStrip f)).data

/-- A validated flight leg as held in tripjack/bluestar `flights` lists:
`(fn, dt, depAp, arrAp)` with a present flight number and a parsed date. -/
structure Leg where
  fn : String
  dt : Ts
  dep : Option String
  arr : Option String
deriving DecidableEq, Repr

/-- Deduplication key of tripjack.py line 207 / bluestar.py line 283:
`(fn, dt.date())`. -/
def dedupKey (l : Leg) : String × Int := (l.fn, dayOf l.dt)

/-- Comparison used by `flights.sort(key=lambda x: x[1])`: order legs by
their timestamp. -/
def ledt (a b : Leg) : Prop := a.dt ≤ b.dt

instance : DecidableRel ledt := fun a b => inferInstanceAs (Decidable (a.dt ≤ b.dt))

instance : IsTotal Leg ledt := ⟨fun a b => Int.le_total a.dt b.dt⟩

instance : IsTrans Leg ledt := ⟨fun _ _ _ h1 h2 => Int.le_trans h1 h2⟩

/-- The stable sort `flights.sort(key=lambda x: x[1])` of tripjack.py
line 201 / bluestar.py line 273, modelled by stable insertion sort on the
date ordering. -/
def sortByDate (l : List Leg) : List Leg := List.insertionSort ledt l

/-- The scan of tripjack.py lines 202-211 / bluestar.py lines 278-287:
walk the (already sorted) list keeping a leg only when its key has not been
seen before. -/
def dedupGo : List Leg → List (String × Int) → List Leg
  | [], _ => []
  | f :: fs, seen =>
    if dedupKey f ∈ seen then dedupGo fs seen
    else f :: dedupGo fs (dedupKey f :: seen)

/-- `deduplicate_flights` of tripjack.py lines 199-213: sort by date, then
drop later legs whose `(fn, day)` key was already seen. -/
def deduplicate_flights (flights : List Leg) : List Leg :=
  dedupGo (sortByDate flights) []

/-- `is_same_route` of tripjack.py lines 161-165 (and bluestar.py
lines 190-194): `False` when either side is NaT, otherwise
`abs(d2 - d1) <= timedelta(days=1)`. -/
def isSameRoute (d1 d2 : Option Ts) : Bool :=
  match d1, d2 with
  | some a, some b => decide (|b - a| ≤ 86400)
  | _, _ => false

/-- Loop body of `group_into_routes` (tripjack.py lines 216-233): each leg
is compared with `route_start_date`, the date of the first leg of the
current route; on failure the current route is closed and the leg starts a
new route with itself as anchor.  The final route is always appended. -/
def groupGo (anchor : Ts) (cur : List Leg) : List Leg → List (List Leg)
  | [] => [cur]
  | f :: fs =>
    if isSameRoute (some f.dt) (some anchor) then groupGo anchor (cur ++ [f]) fs
    else cur :: groupGo f.dt [f] fs

/-- `group_into_routes` of tripjack.py: `flights[0]` raises on an empty
list (modelled as `none`); callers guard with `if not flights`. -/
def group_into_routes : List Leg → Option (List (List Leg))
  | [] => none
  | f :: fs => some (groupGo f.dt [f] fs)

/-- Shared (non-leg) booking attributes of a TRIPJACK row, the columns of
`base_data` in tripjack.py lines 247-256. -/
structure TjBase where
  bookingId : Option String
  paxName : Option String
  journeyBucket : Option String
  bookingRef : Option String
  airline : Option String
  eticket : Option String
deriving DecidableEq, Repr

/-- One row of the TRIPJACK `cleaned_source` view: six shared columns,
`FN1..FN5` (SQL-normalized flight numbers, `NULLIF`-nulled), `DT1..DT5`
(`TRY_CAST` timestamps, `none` for NaT) and `AP1..AP6`. -/
structure TjRow where
  base : TjBase
  fn1 : Option String
  fn2 : Option String
  fn3 : Option String
  fn4 : Option String
  fn5 : Option String
  dt1 : Option Ts
  dt2 : Option Ts
  dt3 : Option Ts
  dt4 : Option Ts
  dt5 : Option Ts
  ap1 : Option String
  ap2 : Option String
  ap3 : Option String
  ap4 : Option String
  ap5 : Option String
  ap6 : Option String
deriving DecidableEq, Repr

/-- One iteration of the leg-collection loop (tripjack.py lines 261-271):
skip the slot unless `is_valid_flightno(fn, dt)` holds, otherwise append
`(fn, dt, AP_i, AP_{i+1})`. -/
def legOfSlot (fn : Option String) (dt : Option Ts) (dep arr : Option String) : List Leg :=
  match fn, dt with
  | some f, some d => if isValidFlightnoStr f then [⟨f, d, dep, arr⟩] else []
  | _, _ => []

/-- The `flights` list collected for one TRIPJACK row: slots `i = 1..5`,
airports paired as `(AP_i, AP_{i+1})`. -/
def tjCollect (r : TjRow) : List Leg :=
  legOfSlot r.fn1 r.dt1 r.ap1 r.ap2 ++ legOfSlot r.fn2 r.dt2 r.ap2 r.ap3 ++
    legOfSlot r.fn3 r.dt3 r.ap3 r.ap4 ++ legOfSlot r.fn4 r.dt4 r.ap4 r.ap5 ++
    legOfSlot r.fn5 r.dt5 r.ap5 r.ap6

/-- One TRIPJACK output row: the six shared columns followed by five
flight-number slots, five date slots and six airport slots. -/
structure TjOut where
  base : TjBase
  fnOut : List (Option String)
  dtOut : List (Option Ts)
  apOut : List (Option String)
deriving DecidableEq, Repr

/-- Python list assignment `l[i] = v`: fails (IndexError) when `i` is out
of range. -/
def listSet? {α : Type} (l : List α) (i : Nat) (v : α) : Option (List α) :=
  if i < l.length then some (l.set i v) else none

/-- The slot-filling loop of tripjack.py lines 288-293: for leg `i` set
`fn_out[i]`, `dt_out[i]`, `ap_out[i] = dep` and, guarded by
`i + 1 < len(ap_out)`, `ap_out[i+1] = arr`.  The unguarded assignments can
raise, which is modelled by `none`. -/
def fillGo : List Leg → Nat → List (Option String) → List (Option Ts) →
    List (Option String) → Option (List (Option String) × List (Option Ts) × List (Option String))
  | [], _, fns, dts, aps => some (fns, dts, aps)
  | lg :: rest, i, fns, dts, aps =>
    match listSet? fns i (some lg.fn), listSet? dts i (some lg.dt), listSet? aps i lg.dep with
    | some fns1, some dts1, some aps1 =>
      let aps2 := if i + 1 < aps1.length then aps1.set (i + 1) lg.arr else aps1
      fillGo rest (i + 1) fns1 dts1 aps2
    | _, _, _ => none

/-- Projection of one route into one output row (tripjack.py lines
282-295): slots start as five/five/six `None`s and are filled from
`route[:6]`. -/
def projectRoute (base : TjBase) (route : List Leg) : Option TjOut :=
  match fillGo (route.take 6) 0 (List.replicate 5 none) (List.replicate 5 none)
      (List.replicate 6 none) with
  | some (f, d, a) => some ⟨base, f, d, a⟩
  | none => none

/-- Option-valued map over a list: `none` as soon as one element fails. -/
def mapOpt {α β : Type} (f : α → Option β) : List α → Option (List β)
  | [] => some []
  | x :: xs =>
    match f x, mapOpt f xs with
    | some y, some ys => some (y :: ys)
    | _, _ => none

/-- Per-row core of `process_batch` (tripjack.py lines 258-295): collect
valid legs, skip the row when none survive, otherwise deduplicate, group
into routes and project each route into one output row. -/
def tjProcessRow (row : TjRow) : Option (List TjOut) :=
  let flights := tjCollect row
  if flights = [] then some []
  else
    match group_into_routes (deduplicate_flights flights) with
    | none => none
    | some routes => mapOpt (projectRoute row.base) routes

/-- The routes computed for one TRIPJACK row (empty when the row is
skipped for lack of valid legs). -/
def tjRoutes (row : TjRow) : List (List Leg) :=
  if tjCollect row = [] then []
  else (group_into_routes (deduplicate_flights (tjCollect row))).getD []

/-- The arrival airport left in the slot after the last processed leg:
the last leg's `arr`, or the incoming pending value when no leg remains. -/
def pendAfter : List Leg → Option String → Option String
  | [], pend => pend
  | l :: rest, _ => pendAfter rest l.arr

/-- Expected content of one projected output row, following section 4.6 of
the specification: the first `maxLegs = 5` legs fill the flight-number and
date slots in order, airport slot `i` holds leg `i`'s departure airport,
the slot after the last leg holds its arrival airport, and all unused
slots stay `None`. -/
def tjProjectSpec (base : TjBase) (rt : List Leg) : TjOut :=
  let legs := rt.take 5
  ⟨base,
    legs.map (fun l => some l.fn) ++ List.replicate (5 - legs.length) none,
    legs.map (fun l => some l.dt) ++ List.replicate (5 - legs.length) none,
    legs.map (fun l => l.dep) ++ pendAfter legs none :: List.replicate (5 - legs.length) none⟩

/-- The whole-batch pipeline: every cleaned row processed independently,
outputs concatenated (tripjack.py `process_batch` over `df.itertuples`). -/
def tjProcessBatch (rows : List TjRow) : Option (List TjOut) :=
  (mapOpt tjProcessRow rows).map List.flatten

/-- The natural key enforced by `CONSTRAINT uq_tripjack UNIQUE (...)`
(tripjack.py lines 86-91): booking reference, airline, ticket number and
all leg and airport slots. -/
def natKey (r : TjOut) : Option String × Option String × Option String ×
    List (Option String) × List (Option Ts) × List (Option String) :=
  (r.base.bookingRef, r.base.airline, r.base.eticket, r.fnOut, r.dtOut, r.apOut)

/-- `INSERT OR IGNORE`: a record whose natural key is already present in
the sink is silently dropped. -/
def insertIgnore (sink : List TjOut) (r : TjOut) : List TjOut :=
  if natKey r ∈ sink.map natKey then sink else sink ++ [r]

/-- Insert a batch of output records one by one. -/
def insertAll (sink : List TjOut) (rs : List TjOut) : List TjOut :=
  rs.foldl insertIgnore sink

/-- Match of `0+([1-9][0-9]*)$` against `rest`, returning the second
capture group: at least one leading zero, then a nonzero digit, then
digits. -/
def zeroTail (rest : List Char) : Option (List Char) :=
  if rest.head? = some '0' then
    let t := rest.dropWhile (· = '0')
    if !t.isEmpty && t.all Char.isDigit then some t else none
  else none

/-- `regexp_replace(s, '^([A-Z]{2,3}|\d[A-Z])0+([1-9][0-9]*)$', '\1\2')`
(tripjack.py `FLTNO_REGEX`, line 20): when the string is an airline code
(two or three letters, or digit-letter) followed by zeros and a nonzero
digit run, drop the zeros; otherwise leave the string unchanged.  At most
one of the three code shapes can yield a full match. -/
def tjRegexRewrite (l : List Char) : List Char :=
  let try3 :=
    if (l.take 3).length = 3 && (l.take 3).all isUpperAlpha then
      (zeroTail (l.drop 3)).map (fun t => l.take 3 ++ t)
    else none
  let try2 :=
    if (l.take 2).length = 2 && (l.take 2).all isUpperAlpha then
      (zeroTail (l.drop 2)).map (fun t => l.take 2 ++ t)
    else none
  let tryDL :=
    match l with
    | c1 :: c2 :: rest =>
      if c1.isDigit && isUpperAlpha c2 then (zeroTail rest).map (fun t => c1 :: c2 :: t)
      else none
    | _ => none
  ((try3 <|> try2) <|> tryDL).getD l

/-- The `FN_i` expression of `create_clean_view` (tripjack.py lines
113-137): `NULLIF(regexp_replace(replace(trim(upper(fn)), ' ', ''),
FLTNO_REGEX, '\1\2'), '')`. -/
def sqlCleanFN (raw : Option String) : Option String :=
  match raw with
  | none => none
  | some s =>
    let c := removeSpaces (pyStrip (pyUpper s))
    let r : String := ⟨tjRegexRewrite c.data⟩
    if r = "" then none else some r

/-- Flight-number normalization of the TRIPJACK pipeline: the SQL cleaning
of `create_clean_view` followed by the `is_valid_flightno` gate of
`process_batch`; `none` is rejection. -/
def tjFlightNormalize (raw : String) : Option String :=
  match sqlCleanFN (some raw) with
  | none => none
  | some s => if isValidFlightnoStr s then some s else none

/-- One leg slot of a BLUESTAR `cleaned_source` row: flight number, date
and the airport pair `(AP_i, AP_{i+1})`. -/
structure BsSlot where
  fn : Option String
  dt : Option Ts
  dep : Option String
  arr : Option String
deriving DecidableEq, Repr

/-- One row of the BLUESTAR `cleaned_source` view. -/
structure BsRow where
  billDate : Option String
  paxName : Option String
  pnr : Option String
  airlineName : Option String
  ticketNo : Option String
  supplierName : Option String
  paxType : Option String
  fn1 : Option String
  fn2 : Option String
  fn3 : Option String
  fn4 : Option String
  dt1 : Option Ts
  dt2 : Option Ts
  dt3 : Option Ts
  dt4 : Option Ts
  ap1 : Option String
  ap2 : Option String
  ap3 : Option String
  ap4 : Option String
  ap5 : Option String
deriving DecidableEq, Repr

/-- The four leg slots of a BLUESTAR row in column order. -/
def bsSlots (r : BsRow) : List BsSlot :=
  [⟨r.fn1, r.dt1, r.ap1, r.ap2⟩, ⟨r.fn2, r.dt2, r.ap2, r.ap3⟩,
   ⟨r.fn3, r.dt3, r.ap3, r.ap4⟩, ⟨r.fn4, r.dt4, r.ap4, r.ap5⟩]

/-- Leg-collection loop of bluestar.py lines 227-263: validation is inline;
a digits-only flight number longer than `MAX_FLTNO_DIGITS = 10` empties the
accumulated list and breaks out of the loop (strict whole-row policy);
all other failures skip just the slot. -/
def bsCollectGo : List BsSlot → List Leg → List Leg
  | [], acc => acc
  | s :: rest, acc =>
    match s.fn, s.dt with
    | some fnRaw, some d =>
      let f1 := pyStrip fnRaw
      if f1.data.isEmpty then bsCollectGo rest acc
      else if isDigitStr f1 && decide (10 < f1.data.length) then []
      else if (rstripZeros f1).data.isEmpty || isAlphaStr (rstripZeros f1) then
        bsCollectGo rest acc
      else
        let f2 := pyUpper (pyStrip f1)
        if !shapeMatch f2.data then bsCollectGo rest acc
        else bsCollectGo rest (acc ++ [⟨f2, d, s.dep, s.arr⟩])
    | _, _ => bsCollectGo rest acc

/-- Does this slot trigger the strict corrupted-numeric policy of
bluestar.py lines 241-244?  Both `fn` and `dt` must be non-NA (the NA
check comes first in the loop), and the stripped flight number must be
digits-only and longer than ten characters. -/
def bsOverflowSlot (s : BsSlot) : Bool :=
  match s.fn, s.dt with
  | some fnRaw, some _ =>
    isDigitStr (pyStrip fnRaw) && decide (10 < (pyStrip fnRaw).data.length)
  | _, _ => false

/-- One BLUESTAR output row (bluestar.py line 326:
`base1 + fn_out + dt_out + base2 + ap_out`). -/
structure BsOut where
  billDate : Option String
  paxName : Option String
  pnr : Option String
  airlineName : Option String
  ticketNo : Option String
  fnOut : List (Option String)
  dtOut : List (Option Ts)
  supplierName : Option String
  paxType : Option String
  apOut : List (Option String)
deriving DecidableEq, Repr

/-- Slot-filling loop of bluestar.py lines 318-323 over `route[:4]`: all
indices are in range (four slots for four legs, guarded `i + 1 < 5`), so
the loop is total. -/
def bsFillGo : List Leg → Nat → List (Option String) → List (Option Ts) →
    List (Option String) → List (Option String) × List (Option Ts) × List (Option String)
  | [], _, fns, dts, aps => (fns, dts, aps)
  | lg :: rest, i, fns, dts, aps =>
    let aps1 := aps.set i lg.dep
    let aps2 := if i + 1 < aps1.length then aps1.set (i + 1) lg.arr else aps1
    bsFillGo rest (i + 1) (fns.set i (some lg.fn)) (dts.set i (some lg.dt)) aps2

/-- Build one BLUESTAR output row from a route. -/
def bsBuild (r : BsRow) (route : List Leg) : BsOut :=
  let filled := bsFillGo (route.take 4) 0 (List.replicate 4 none) (List.replicate 4 none)
    (List.replicate 5 none)
  ⟨r.billDate, r.paxName, r.pnr, r.airlineName, r.ticketNo,
    filled.1, filled.2.1, r.supplierName, r.paxType, filled.2.2⟩

/-- Per-row core of bluestar.py `process_batch` (lines 224-326): collect
legs under the strict policy, skip the row when none survive, sort,
deduplicate, group into routes (1-day threshold, route-start anchor) and
build one output row per route. -/
def bsProcessRow (row : BsRow) : List BsOut :=
  let flights := bsCollectGo (bsSlots row) []
  if flights = [] then []
  else
    ((group_into_routes (deduplicate_flights flights)).getD []).map (bsBuild row)

/-- A raw date value before `TRY_CAST`: SQL `NULL`, an unparseable value
(tagged so distinct junk values stay distinct), or a parsed timestamp. -/
inductive RawDate where
  | null : RawDate
  | bad : Nat → RawDate
  | ok : Ts → RawDate
deriving DecidableEq, Repr

/-- `TRY_CAST(dt AS TIMESTAMP)`: `NULL` on null or unparseable input. -/
def tryCastTs : RawDate → Option Ts
  | .null => none
  | .bad _ => none
  | .ok t => some t

/-- Calendar year of a timestamp (proleptic Gregorian, Hinnant's
`civil_from_days`), as computed by SQL `YEAR(...)`. -/
def yearOf (t : Ts) : Int :=
  let z := Int.fdiv t 86400 + 719468
  let era := Int.fdiv z 146097
  let doe := z - era * 146097
  let yoe := Int.fdiv (doe - Int.fdiv doe 1460 + Int.fdiv doe 36524 - Int.fdiv doe 146096) 365
  let y := yoe + era * 400
  let doy := doe - (365 * yoe + Int.fdiv yoe 4 - Int.fdiv yoe 100)
  let mp := Int.fdiv (5 * doy + 2) 153
  let m := mp + (if mp < 10 then 3 else -9)
  y + (if m ≤ 2 then 1 else 0)

/-- TBO year window (tbo3.py lines 17-18). -/
def tboYearMin : Int := 1990

/-- TBO year window (tbo3.py lines 17-18). -/
def tboYearMax : Int := 2100

/-- The `normalize_date` macro of tbo3.py lines 100-110: `NULL` when the
input is null, fails to cast, or has a year outside
`[VALID_YEAR_MIN, VALID_YEAR_MAX]`; otherwise the cast timestamp. -/
def normalize_date (d : RawDate) : Option Ts :=
  match d with
  | .null => none
  | .bad _ => none
  | .ok t => if yearOf t < tboYearMin || tboYearMax < yearOf t then none else some t

/-- Match of `^([A-Z]{2,3})(0*)([0-9]+)$` against `l`, returning the code
and the digit remainder.  The greedy `{2,3}` tries three letters first;
at most one split can complete the match. -/
def tboMatch023 (l : List Char) : Option (List Char × List Char) :=
  let tryK := fun (k : Nat) =>
    if (l.take k).length = k && (l.take k).all isUpperAlpha &&
        !(l.drop k).isEmpty && (l.drop k).all Char.isDigit then
      some (l.take k, l.drop k)
    else none
  tryK 3 <|> tryK 2

/-- `regexp_replace(u, '^([A-Z]{2,3})0+([0-9]+)$', '\1\2')` applied to a
string already known to match `^([A-Z]{2,3})(0*)([0-9]+)$`: with no
leading zero (or a lone `"0"` remainder) the replace pattern does not
match and the string is unchanged; an all-zero remainder keeps one final
zero (the greedy `0+` backtracks to leave one digit for group 2). -/
def tboRewrite (code rest : List Char) : List Char :=
  if rest.head? = some '0' then
    let t := rest.dropWhile (· = '0')
    if !t.isEmpty then code ++ t
    else if 2 ≤ rest.length then code ++ ['0']
    else code ++ rest
  else code ++ rest

/-- The `normalize_flight` macro of tbo3.py lines 89-98 on a non-null
input: uppercase and trim, then strip leading zeros of the digit run when
the code/digits shape matches. -/
def normalize_flight_str (s : String) : String :=
  let u := pyUpper (pyStrip s)
  match tboMatch023 u.data with
  | some (code, rest) => ⟨tboRewrite code rest⟩
  | none => u

/-- The `is_rnk` macro of tbo3.py lines 79-87 on a non-null input:
`^[A-Z]{2,3}0+$` against the upper-trimmed string. -/
def is_rnk (s : String) : Bool :=
  let u := (pyUpper (pyStrip s)).data
  let chk := fun (k : Nat) =>
    (u.take k).length = k && (u.take k).all isUpperAlpha &&
      !(u.drop k).isEmpty && (u.drop k).all (· = '0')
  chk 2 || chk 3

/-- One unpivoted candidate leg of the TBO pipeline (`unpivoted` CTE,
tbo3.py lines 143-172): the raw flight number is non-blank by the
`NULLIF(TRIM(COALESCE(...)))` filter. -/
structure TboRawLeg where
  fn : String
  dtRaw : RawDate
  dep : Option String
  arr : Option String
  seq : Nat
deriving DecidableEq, Repr

/-- One cleaned TBO leg (`cleaned` CTE): normalized flight number and
parsed date. -/
structure TboClean where
  fn : String
  dte : Ts
  dep : Option String
  arr : Option String
  seq : Nat
deriving DecidableEq, Repr

/-- One source row of the TBO pipeline. -/
structure TboRow where
  paxName : Option String
  bookingRef : Option String
  eticket : Option String
  clientCode : Option String
  airline : Option String
  journeyType : Option String
  fn1 : Option String
  fn2 : Option String
  fn3 : Option String
  fn4 : Option String
  fn5 : Option String
  fn6 : Option String
  fn7 : Option String
  d1 : RawDate
  d2 : RawDate
  d3 : RawDate
  d4 : RawDate
  d5 : RawDate
  d6 : RawDate
  d7 : RawDate
  ap1 : Option String
  ap2 : Option String
  ap3 : Option String
  ap4 : Option String
  ap5 : Option String
  ap6 : Option String
  ap7 : Option String
  ap8 : Option String
deriving DecidableEq, Repr

/-- One branch of the `unpivoted` UNION (tbo3.py lines 144-171): slot `i`
contributes a candidate leg when `NULLIF(TRIM(COALESCE(fn, '')), '')` is
not blank. -/
def tboSlot (fn : Option String) (d : RawDate) (dep arr : Option String) (seq : Nat) :
    List TboRawLeg :=
  match fn with
  | some f => if (pyStrip f).data.isEmpty then [] else [⟨f, d, dep, arr, seq⟩]
  | none => []

/-- The `unpivoted` CTE for one source row, in `OriginalSeq` order. -/
def tboUnpivot (r : TboRow) : List TboRawLeg :=
  tboSlot r.fn1 r.d1 r.ap1 r.ap2 1 ++ tboSlot r.fn2 r.d2 r.ap2 r.ap3 2 ++
    tboSlot r.fn3 r.d3 r.ap3 r.ap4 3 ++ tboSlot r.fn4 r.d4 r.ap4 r.ap5 4 ++
    tboSlot r.fn5 r.d5 r.ap5 r.ap6 5 ++ tboSlot r.fn6 r.d6 r.ap6 r.ap7 6 ++
    tboSlot r.fn7 r.d7 r.ap7 r.ap8 7

/-- The `cleaned` CTE (tbo3.py lines 173-183) for one candidate leg:
requires `normalize_flight` and `normalize_date` non-null and the flight
number not to be an `is_rnk` placeholder.  `normalize_flight` never
returns `NULL` on the non-null flight numbers that survive `unpivoted`. -/
def tboCleanLeg (leg : TboRawLeg) : Option TboClean :=
  match normalize_date leg.dtRaw with
  | none => none
  | some cd =>
    if is_rnk leg.fn then none
    else some ⟨normalize_flight_str leg.fn, cd, leg.dep, leg.arr, leg.seq⟩

/-- The `cleaned` CTE applied to a whole unpivoted list. -/
def tboCleanLegs (legs : List TboRawLeg) : List TboClean :=
  legs.filterMap tboCleanLeg

/-- The `deduped`/`kept_after_dedup` CTEs (tbo3.py lines 184-198) within
one booking: keep only the first leg (in `OriginalSeq` order) for each
exact `clean_dte` timestamp. -/
def tboDedupGo : List TboClean → List Ts → List TboClean
  | [], _ => []
  | c :: cs, seen =>
    if c.dte ∈ seen then tboDedupGo cs seen
    else c :: tboDedupGo cs (c.dte :: seen)

/-- The `with_prev`/`with_trip_id` CTEs (tbo3.py lines 199-224): walking
in `OriginalSeq` order, a leg starts a new trip exactly when the signed
gap to the previous leg exceeds 36 hours (`36 * 3600` seconds). -/
def tboTripsGo (prev : Ts) (cur : List TboClean) : List TboClean → List (List TboClean)
  | [] => [cur]
  | c :: cs =>
    if 36 * 3600 < c.dte - prev then cur :: tboTripsGo c.dte [c] cs
    else tboTripsGo c.dte (cur ++ [c]) cs

/-- Split cleaned, deduplicated legs into trips. -/
def tboTrips : List TboClean → List (List TboClean)
  | [] => []
  | c :: cs => tboTripsGo c.dte [c] cs

/-- One TBO output row. -/
structure TboOut where
  paxName : Option String
  bookingRef : Option String
  eticket : Option String
  clientCode : Option String
  airline : Option String
  journeyType : Option String
  fns : List (Option String)
  dts : List (Option Ts)
  aps : List (Option String)
deriving DecidableEq, Repr

/-- The `pivoted` CTE and final SELECT (tbo3.py lines 236-279) for one
trip: leg `i` of the trip fills slot `i`; `Airport1` is the first leg's
departure airport and `Airport_{i+1}` is leg `i`'s arrival airport; the
final SELECT emits `NULL AS ETicketNo`. -/
def tboPivot (r : TboRow) (trip : List TboClean) : TboOut :=
  ⟨r.paxName, r.bookingRef, none, r.clientCode, r.airline, r.journeyType,
    (List.range 7).map (fun i => (trip.get? i).map (fun c => c.fn)),
    (List.range 7).map (fun i => (trip.get? i).map (fun c => c.dte)),
    ((trip.get? 0).bind (fun c => c.dep)) ::
      (List.range 7).map (fun i => (trip.get? i).bind (fun c => c.arr))⟩

/-- The whole TBO pipeline for one booking row. -/
def tboProcessRow (r : TboRow) : List TboOut :=
  (tboTrips (tboDedupGo (tboCleanLegs (tboUnpivot r)) [])).map (tboPivot r)

/-! ### Supporting lemmas -/

/-- The first leg of a list carrying the given deduplication key: the
occurrence that section 4.4 of the specification says is kept. -/
def firstKeyMatch (k : String × Int) : List Leg → Option Leg
  | [] => none
  | y :: ys => if dedupKey y = k then some y else firstKeyMatch k ys

lemma dedupGo_sublist : ∀ (l : List Leg) (seen : List (String × Int)),
    List.Sublist (dedupGo l seen) l := by
  intro l
  induction l with
  | nil => intro seen; simp [dedupGo]
  | cons f fs ih =>
    intro seen
    simp only [dedupGo]
    by_cases h : dedupKey f ∈ seen
    · rw [if_pos h]; exact (ih seen).cons f
    · rw [if_neg h]; exact (ih _).cons₂ f

lemma dedupGo_mem_iff : ∀ (l : List Leg) (seen : List (String × Int)) (x : Leg),
    x ∈ dedupGo l seen ↔
      dedupKey x ∉ seen ∧ firstKeyMatch (dedupKey x) l = some x := by
  intro l
  induction l with
  | nil => intro seen x; simp [dedupGo, firstKeyMatch]
  | cons f fs ih =>
    intro seen x
    simp only [dedupGo, firstKeyMatch]
    by_cases hk : dedupKey f = dedupKey x
    · rw [if_pos hk]
      by_cases hf : dedupKey f ∈ seen
      · rw [if_pos hf, ih]
        constructor
        · rintro ⟨hx, _⟩; exact absurd (hk ▸ hf) hx
        · rintro ⟨hx, hfx⟩
          obtain rfl : f = x := by simpa using hfx
          exact absurd (hk ▸ hf) hx
      · rw [if_neg hf]
        constructor
        · intro hmem
          rcases List.mem_cons.mp hmem with rfl | hmem
          · exact ⟨fun hc => hf (hk ▸ hc), rfl⟩
          · rw [ih] at hmem
            exact absurd (by simp [hk]) hmem.1
        · rintro ⟨hx, hfx⟩
          obtain rfl : f = x := by simpa using hfx
          exact List.mem_cons_self _ _
    · rw [if_neg hk]
      by_cases hf : dedupKey f ∈ seen
      · rw [if_pos hf, ih]
      · rw [if_neg hf]
        constructor
        · intro hmem
          rcases List.mem_cons.mp hmem with rfl | hmem
          · exact absurd rfl hk
          · rw [ih] at hmem
            exact ⟨fun hc => hmem.1 (List.mem_cons_of_mem _ hc), hmem.2⟩
        · rintro ⟨hx, hfx⟩
          refine List.mem_cons_of_mem _ ?_
          rw [ih]
          refine ⟨?_, hfx⟩
          intro hc
          rcases List.mem_cons.mp hc with he | hc
          · exact hk he.symm
          · exact hx hc

lemma sortByDate_perm (l : List Leg) : List.Perm (sortByDate l) l :=
  List.perm_insertionSort ledt l

lemma sortByDate_length (l : List Leg) : (sortByDate l).length = l.length :=
  (sortByDate_perm l).length_eq

lemma sortByDate_pairwise (l : List Leg) : (sortByDate l).Pairwise ledt :=
  List.sorted_insertionSort ledt l

lemma sortByDate_ne_nil {l : List Leg} (h : l ≠ []) : sortByDate l ≠ [] := by
  intro hc
  exact h (List.Perm.eq_nil (hc ▸ (sortByDate_perm l).symm))

lemma deduplicate_flights_ne_nil {l : List Leg} (h : l ≠ []) : deduplicate_flights l ≠ [] := by
  unfold deduplicate_flights
  cases hs : sortByDate l with
  | nil => exact absurd hs (sortByDate_ne_nil h)
  | cons f fs => simp [dedupGo]

lemma deduplicate_flights_length_le (l : List Leg) :
    (deduplicate_flights l).length ≤ l.length := by
  have h := (dedupGo_sublist (sortByDate l) []).length_le
  rw [sortByDate_length] at h
  exact h

lemma deduplicate_flights_pairwise (l : List Leg) :
    (deduplicate_flights l).Pairwise ledt :=
  (sortByDate_pairwise l).sublist (dedupGo_sublist (sortByDate l) [])

lemma groupGo_mem_length : ∀ (rest : List Leg) (anchor : Ts) (cur : List Leg)
    (r : List Leg), r ∈ groupGo anchor cur rest → r.length ≤ cur.length + rest.length := by
  intro rest
  induction rest with
  | nil =>
    intro anchor cur r hr
    simp only [groupGo, List.mem_singleton] at hr
    simp [hr]
  | cons f fs ih =>
    intro anchor cur r hr
    simp only [groupGo] at hr
    by_cases hc : isSameRoute (some f.dt) (some anchor) = true
    · rw [if_pos hc] at hr
      have h2 := ih anchor (cur ++ [f]) r hr
      simp at h2 ⊢
      omega
    · rw [if_neg hc] at hr
      rcases List.mem_cons.mp hr with rfl | hr
      · simp
      · have h2 := ih f.dt [f] r hr
        simp at h2 ⊢
        omega

lemma groupGo_mem_pairwise : ∀ (rest : List Leg) (anchor : Ts) (cur : List Leg),
    (cur ++ rest).Pairwise ledt →
      ∀ r ∈ groupGo anchor cur rest, r.Pairwise ledt := by
  intro rest
  induction rest with
  | nil =>
    intro anchor cur h r hr
    simp only [groupGo, List.mem_singleton] at hr
    subst hr
    simpa using h
  | cons f fs ih =>
    intro anchor cur h r hr
    simp only [groupGo] at hr
    by_cases hc : isSameRoute (some f.dt) (some anchor) = true
    · rw [if_pos hc] at hr
      exact ih anchor (cur ++ [f]) (by simpa using h) r hr
    · rw [if_neg hc] at hr
      rcases List.mem_cons.mp hr with rfl | hr
      · exact h.sublist (List.sublist_append_left _ _)
      · exact ih f.dt [f] (h.sublist (List.sublist_append_right _ _)) r hr

lemma mapOpt_congr {α β : Type} {f : α → Option β} {g : α → β} :
    ∀ {l : List α}, (∀ x ∈ l, f x = some (g x)) → mapOpt f l = some (l.map g) := by
  intro l
  induction l with
  | nil => intro _; rfl
  | cons x xs ih =>
    intro h
    simp only [mapOpt, h x (List.mem_cons_self x xs), ih fun y hy => h y (List.mem_cons_of_mem x hy),
      List.map_cons]

lemma mapOpt_mem {α β : Type} {f : α → Option β} :
    ∀ {l : List α} {res : List β}, mapOpt f l = some res → ∀ r ∈ res, ∃ x ∈ l, f x = some r := by
  intro l
  induction l with
  | nil =>
    intro res h r hr
    simp only [mapOpt, Option.some.injEq] at h
    subst h
    simp at hr
  | cons x xs ih =>
    intro res h r hr
    simp only [mapOpt] at h
    cases hx : f x with
    | none => rw [hx] at h; exact absurd h (by simp)
    | some y =>
      rw [hx] at h
      cases hxs : mapOpt f xs with
      | none => rw [hxs] at h; exact absurd h (by simp)
      | some ys =>
        rw [hxs] at h
        obtain rfl : y :: ys = res := by simpa using h
        rcases List.mem_cons.mp hr with rfl | hr
        · exact ⟨x, List.mem_cons_self x xs, hx⟩
        · obtain ⟨z, hz, hfz⟩ := ih hxs r hr
          exact ⟨z, List.mem_cons_of_mem x hz, hfz⟩

lemma set_append_cons {α : Type} : ∀ (as : List α) (b : α) (bs : List α) (v : α),
    (as ++ b :: bs).set as.length v = as ++ v :: bs := by
  intro as
  induction as with
  | nil => intro b bs v; rfl
  | cons a as ih =>
    intro b bs v
    simp only [List.cons_append, List.length_cons, List.set_cons_succ, ih]

lemma listSet?_eq_some {α : Type} {l : List α} {i : Nat} (v : α) (h : i < l.length) :
    listSet? l i v = some (l.set i v) := by
  rw [listSet?, if_pos h]

lemma fillGo_cons_eq (lg : Leg) (rest : List Leg) (i : Nat)
    {fns fns1 : List (Option String)} {dts dts1 : List (Option Ts)}
    {aps aps1 : List (Option String)}
    (h1 : listSet? fns i (some lg.fn) = some fns1)
    (h2 : listSet? dts i (some lg.dt) = some dts1)
    (h3 : listSet? aps i lg.dep = some aps1) :
    fillGo (lg :: rest) i fns dts aps =
      fillGo rest (i + 1) fns1 dts1
        (if i + 1 < aps1.length then aps1.set (i + 1) lg.arr else aps1) := by
  simp only [fillGo, h1, h2, h3]

lemma fillGo_spec : ∀ (legs : List Leg) (i : Nat) (Pf : List (Option String))
    (Pd : List (Option Ts)) (Pa : List (Option String)) (pend : Option String),
    Pf.length = i → Pd.length = i → Pa.length = i → i + legs.length ≤ 5 →
    fillGo legs i (Pf ++ List.replicate (5 - i) none) (Pd ++ List.replicate (5 - i) none)
        (Pa ++ pend :: List.replicate (5 - i) none) =
      some (Pf ++ legs.map (fun l => some l.fn) ++ List.replicate (5 - i - legs.length) none,
        Pd ++ legs.map (fun l => some l.dt) ++ List.replicate (5 - i - legs.length) none,
        Pa ++ legs.map (fun l => l.dep) ++
          pendAfter legs pend :: List.replicate (5 - i - legs.length) none) := by
  intro legs
  induction legs with
  | nil =>
    intro i Pf Pd Pa pend hf hd ha hlen
    simp [fillGo, pendAfter]
  | cons lg rest ih =>
    intro i Pf Pd Pa pend hf hd ha hlen
    have hi5 : i < 5 := by simp at hlen; omega
    have h5i : 5 - i = (5 - (i + 1)) + 1 := by omega
    have hlf : (Pf ++ List.replicate (5 - i) (none : Option String)).length = 5 := by
      simp [hf]; omega
    have hld : (Pd ++ List.replicate (5 - i) (none : Option Ts)).length = 5 := by
      simp [hd]; omega
    have hla : (Pa ++ pend :: List.replicate (5 - i) (none : Option String)).length = 6 := by
      simp [ha]; omega
    have sf : (Pf ++ List.replicate (5 - i) (none : Option String)).set i (some lg.fn) =
        (Pf ++ [some lg.fn]) ++ List.replicate (5 - (i + 1)) none := by
      rw [h5i, List.replicate_succ, ← hf, set_append_cons]
      simp
    have sd : (Pd ++ List.replicate (5 - i) (none : Option Ts)).set i (some lg.dt) =
        (Pd ++ [some lg.dt]) ++ List.replicate (5 - (i + 1)) none := by
      rw [h5i, List.replicate_succ, ← hd, set_append_cons]
      simp
    have sa : (Pa ++ pend :: List.replicate (5 - i) (none : Option String)).set i lg.dep =
        Pa ++ lg.dep :: List.replicate (5 - i) none := by
      rw [← ha, set_append_cons]
    have e1 := listSet?_eq_some (l := Pf ++ List.replicate (5 - i) none) (i := i)
      (some lg.fn) (by rw [hlf]; omega)
    rw [sf] at e1
    have e2 := listSet?_eq_some (l := Pd ++ List.replicate (5 - i) none) (i := i)
      (some lg.dt) (by rw [hld]; omega)
    rw [sd] at e2
    have e3 := listSet?_eq_some (l := Pa ++ pend :: List.replicate (5 - i) none) (i := i)
      lg.dep (by rw [hla]; omega)
    rw [sa] at e3
    rw [fillGo_cons_eq lg rest i e1 e2 e3]
    have hlen2 : (Pa ++ lg.dep :: List.replicate (5 - i) (none : Option String)).length = 6 := by
      simp [ha]; omega
    rw [if_pos (by rw [hlen2]; omega)]
    have sa2 : (Pa ++ lg.dep :: List.replicate (5 - i) (none : Option String)).set (i + 1) lg.arr =
        (Pa ++ [lg.dep]) ++ lg.arr :: List.replicate (5 - (i + 1)) none := by
      have eA : Pa ++ lg.dep :: List.replicate (5 - i) (none : Option String) =
          (Pa ++ [lg.dep]) ++ List.replicate (5 - i) none := by simp
      have eB : (Pa ++ [lg.dep]).length = i + 1 := by simp [ha]
      rw [eA, h5i, List.replicate_succ, ← eB, set_append_cons]
    rw [sa2]
    have ihx := ih (i + 1) (Pf ++ [some lg.fn]) (Pd ++ [some lg.dt]) (Pa ++ [lg.dep]) lg.arr
      (by simp [hf]) (by simp [hd]) (by simp [ha]) (by simp at hlen ⊢; omega)
    rw [ihx]
    have harith : 5 - (i + 1) - rest.length = 5 - i - (rest.length + 1) := by omega
    simp only [List.map_cons, List.append_assoc, List.singleton_append, List.length_cons,
      pendAfter, harith]

lemma legOfSlot_length (fn : Option String) (dt : Option Ts) (dep arr : Option String) :
    (legOfSlot fn dt dep arr).length ≤ 1 := by
  unfold legOfSlot
  cases fn <;> cases dt <;> simp
  split <;> simp

lemma tjCollect_length (r : TjRow) : (tjCollect r).length ≤ 5 := by
  unfold tjCollect
  have h1 := legOfSlot_length r.fn1 r.dt1 r.ap1 r.ap2
  have h2 := legOfSlot_length r.fn2 r.dt2 r.ap2 r.ap3
  have h3 := legOfSlot_length r.fn3 r.dt3 r.ap3 r.ap4
  have h4 := legOfSlot_length r.fn4 r.dt4 r.ap4 r.ap5
  have h5 := legOfSlot_length r.fn5 r.dt5 r.ap5 r.ap6
  simp only [List.length_append]
  omega

lemma tjRoutes_length_le (row : TjRow) : ∀ rt ∈ tjRoutes row, rt.length ≤ 5 := by
  intro rt hrt
  unfold tjRoutes at hrt
  by_cases hc : tjCollect row = []
  · rw [if_pos hc] at hrt; simp at hrt
  · rw [if_neg hc] at hrt
    cases hd : deduplicate_flights (tjCollect row) with
    | nil => exact absurd hd (deduplicate_flights_ne_nil hc)
    | cons f fs =>
      rw [hd] at hrt
      simp only [group_into_routes, Option.getD_some] at hrt
      have hb := groupGo_mem_length fs f.dt [f] rt hrt
      have hl : (f :: fs).length ≤ 5 := by
        rw [← hd]
        exact le_trans (deduplicate_flights_length_le _) (tjCollect_length row)
      simp at hb hl
      omega

lemma projectRoute_eq (base : TjBase) (rt : List Leg) (h : rt.length ≤ 5) :
    projectRoute base rt = some (tjProjectSpec base rt) := by
  unfold projectRoute tjProjectSpec
  have ht6 : rt.take 6 = rt := List.take_of_length_le (by omega)
  have ht5 : rt.take 5 = rt := List.take_of_length_le h
  have hs := fillGo_spec rt 0 [] [] [] none rfl rfl rfl (by simpa using h)
  simp only [List.nil_append, Nat.sub_zero] at hs
  rw [ht6, show List.replicate 6 (none : Option String) =
    (none : Option String) :: List.replicate 5 none from rfl]
  simp only [hs, ht5]

/-- Claim C1: for every booking row the per-row core completes without
failure, producing exactly one output record per route; each record holds
the first `maxLegs = 5` legs of its route (flight numbers and dates in
order, chained airports), with unused slots `None`, and a row with no
valid legs yields the empty output set. -/
theorem tj_c1 (row : TjRow) :
    tjProcessRow row = some ((tjRoutes row).map (tjProjectSpec row.base)) := by
  unfold tjProcessRow tjRoutes
  by_cases hc : tjCollect row = []
  · rw [if_pos hc, if_pos hc]
    rfl
  · rw [if_neg hc, if_neg hc]
    cases hd : deduplicate_flights (tjCollect row) with
    | nil => exact absurd hd (deduplicate_flights_ne_nil hc)
    | cons f fs =>
      simp only [group_into_routes, Option.getD_some]
      apply mapOpt_congr
      intro rt hrt
      apply projectRoute_eq
      have hb := groupGo_mem_length fs f.dt [f] rt hrt
      have hl : (f :: fs).length ≤ 5 := by
        rw [← hd]
        exact le_trans (deduplicate_flights_length_le _) (tjCollect_length row)
      simp at hb hl
      omega

/-- TRIPJACK row used to refute claim C2: two legs with the same
`(flight number, day)` key, where the positionally first leg departs later
in the day than the positionally second one. -/
def tjRowC2 : TjRow :=
  ⟨⟨some "B1", some "P", some "J", some "PNR", some "AI", some "T"⟩,
    some "TK6", some "TK6", none, none, none,
    some 43200, some 21600, none, none, none,
    some "DEL", some "BOM", some "BLR", none, none, none⟩

/-- Claim C2, counterexample: on `tjRowC2` the collected legs are (in
positional column order) the 12:00 leg then the 06:00 leg; deduplication
keeps the positionally second leg, not the first occurrence in positional
column order, because the list is sorted by timestamp before the key scan. -/
theorem tj_c2_counterexample :
    tjCollect tjRowC2 =
      [⟨"TK6", 43200, some "DEL", some "BOM"⟩, ⟨"TK6", 21600, some "BOM", some "BLR"⟩] ∧
    dedupKey (⟨"TK6", 43200, some "DEL", some "BOM"⟩ : Leg) =
      dedupKey (⟨"TK6", 21600, some "BOM", some "BLR"⟩ : Leg) ∧
    deduplicate_flights (tjCollect tjRowC2) = [⟨"TK6", 21600, some "BOM", some "BLR"⟩] ∧
    (⟨"TK6", 21600, some "BOM", some "BLR"⟩ : Leg) ≠ ⟨"TK6", 43200, some "DEL", some "BOM"⟩ := by
  refine ⟨by decide, by decide, by decide, by decide⟩

/-- Claim C2 as amended: a leg is kept by `deduplicate_flights` exactly
when it is the first leg carrying its `(normalized flight number, day)`
key in date-sorted order (stable sort by timestamp, ties in positional
column order), not in positional column order. -/
theorem tj_c2_amended (fl : List Leg) (x : Leg) :
    x ∈ deduplicate_flights fl ↔ firstKeyMatch (dedupKey x) (sortByDate fl) = some x := by
  unfold deduplicate_flights
  rw [dedupGo_mem_iff]
  simp

/-- TRIPJACK row used to refute claim C3: two distinct flights at the very
same timestamp survive deduplication and land in one route. -/
def tjRowC3 : TjRow :=
  ⟨⟨some "B1", some "P", some "J", some "PNR", some "AI", some "T"⟩,
    some "TK6", some "AA1", none, none, none,
    some 100, some 100, none, none, none,
    some "DEL", some "BOM", some "BLR", none, none, none⟩

/-- Claim C3, counterexample: the single route emitted for `tjRowC3` holds
two legs with equal dates, so its legs are not strictly ordered by date
ascending. -/
theorem tj_c3_counterexample :
    (tjRoutes tjRowC3).map (fun rt => rt.map (fun l => l.dt)) = [[100, 100]] ∧
    ¬ (∀ rt ∈ tjRoutes tjRowC3, rt.Pairwise (fun a b => a.dt < b.dt)) := by
  refine ⟨by decide, by decide⟩

/-- Claim C3 as amended: after segmentation every emitted route has its
legs ordered by date ascending non-strictly (sorted with a stable sort;
distinct legs sharing a timestamp may share a route). -/
theorem tj_c3_amended (row : TjRow) : ∀ rt ∈ tjRoutes row, rt.Pairwise ledt := by
  intro rt hrt
  unfold tjRoutes at hrt
  by_cases hc : tjCollect row = []
  · rw [if_pos hc] at hrt; simp at hrt
  · rw [if_neg hc] at hrt
    cases hd : deduplicate_flights (tjCollect row) with
    | nil => exact absurd hd (deduplicate_flights_ne_nil hc)
    | cons f fs =>
      rw [hd] at hrt
      simp only [group_into_routes, Option.getD_some] at hrt
      have hp : ([f] ++ fs).Pairwise ledt := by
        have := deduplicate_flights_pairwise (tjCollect row)
        rw [hd] at this
        simpa using this
      exact groupGo_mem_pairwise fs f.dt [f] hp rt hrt

/-- Witness for the amended claim C3, at the refuting row itself: the one
route of `tjRowC3` is non-decreasing in date. -/
theorem tj_c3_amended_witness :
    ([⟨"TK6", 100, some "DEL", some "BOM"⟩, ⟨"AA1", 100, some "BOM", some "BLR"⟩] :
      List Leg).Pairwise ledt :=
  tj_c3_amended tjRowC3 _ (by decide)

/-- Claim C5: the TRIPJACK flight-number normalization maps `"TK0006"` to
`"TK6"`, rejects `"TK000"`, rejects `"G8"`, and accepts `"6E1234"`
unchanged. -/
theorem tj_c5 :
    tjFlightNormalize "TK0006" = some "TK6" ∧ tjFlightNormalize "TK000" = none ∧
    tjFlightNormalize "G8" = none ∧ tjFlightNormalize "6E1234" = some "6E1234" := by
  refine ⟨by decide, by decide, by decide, by decide⟩

/-- Claim C7: a leg exactly `gapThreshold = 1` day from the route anchor
stays in the same route, while a leg strictly farther away closes the
route; stated for the segmenter step and for two-leg routes. -/
theorem tj_c7 :
    (∀ (anchor : Ts) (cur rest : List Leg) (f : Leg), |f.dt - anchor| = 86400 →
      groupGo anchor cur (f :: rest) = groupGo anchor (cur ++ [f]) rest) ∧
    (∀ (anchor : Ts) (cur rest : List Leg) (f : Leg), 86400 < |f.dt - anchor| →
      groupGo anchor cur (f :: rest) = cur :: groupGo f.dt [f] rest) ∧
    (∀ a b : Leg, |b.dt - a.dt| = 86400 → group_into_routes [a, b] = some [[a, b]]) ∧
    (∀ a b : Leg, 86400 < |b.dt - a.dt| → group_into_routes [a, b] = some [[a], [b]]) := by
  have hsame : ∀ (anchor : Ts) (f : Leg), |f.dt - anchor| ≤ 86400 →
      isSameRoute (some f.dt) (some anchor) = true := by
    intro anchor f h
    simp only [isSameRoute, decide_eq_true_eq]
    rw [abs_sub_comm]
    exact h
  have hdiff : ∀ (anchor : Ts) (f : Leg), 86400 < |f.dt - anchor| →
      ¬ isSameRoute (some f.dt) (some anchor) = true := by
    intro anchor f h
    simp only [isSameRoute, decide_eq_true_eq, not_le]
    rw [abs_sub_comm]
    exact h
  refine ⟨?_, ?_, ?_, ?_⟩
  · intro anchor cur rest f h
    simp only [groupGo]
    rw [if_pos (hsame anchor f (le_of_eq h))]
  · intro anchor cur rest f h
    simp only [groupGo]
    rw [if_neg (hdiff anchor f h)]
  · intro a b h
    simp only [group_into_routes, groupGo]
    rw [if_pos (hsame a.dt b (le_of_eq h))]
    rfl
  · intro a b h
    simp only [group_into_routes, groupGo]
    rw [if_neg (hdiff a.dt b h)]

/-- Witness for claim C7 at concrete legs: exactly one day apart gives one
route, one day plus one second gives two routes. -/
theorem tj_c7_witness :
    group_into_routes [⟨"TK6", 0, none, none⟩, ⟨"AA1", 86400, none, none⟩] =
      some [[⟨"TK6", 0, none, none⟩, ⟨"AA1", 86400, none, none⟩]] ∧
    group_into_routes [⟨"TK6", 0, none, none⟩, ⟨"AA1", 86401, none, none⟩] =
      some [[⟨"TK6", 0, none, none⟩], [⟨"AA1", 86401, none, none⟩]] :=
  ⟨tj_c7.2.2.1 ⟨"TK6", 0, none, none⟩ ⟨"AA1", 86400, none, none⟩ (by decide),
   tj_c7.2.2.2 ⟨"TK6", 0, none, none⟩ ⟨"AA1", 86401, none, none⟩ (by decide)⟩

/-- Claim C10: the route-membership test takes the absolute value of the
time difference, so it is symmetric in its two arguments, and a leg whose
date precedes the anchor by up to the gap threshold is also kept in the
current route. -/
theorem tj_c10 :
    (∀ d1 d2 : Option Ts, isSameRoute d1 d2 = isSameRoute d2 d1) ∧
    (∀ (anchor : Ts) (cur rest : List Leg) (f : Leg) (d : Ts), 0 ≤ d → d ≤ 86400 →
      f.dt = anchor - d → groupGo anchor cur (f :: rest) = groupGo anchor (cur ++ [f]) rest) := by
  constructor
  · intro d1 d2
    cases d1 <;> cases d2 <;> simp [isSameRoute]
    rw [abs_sub_comm]
  · intro anchor cur rest f d h0 h1 hf
    simp only [groupGo]
    rw [if_pos]
    simp only [isSameRoute, decide_eq_true_eq, hf]
    rw [show anchor - (anchor - d) = d by ring, abs_of_nonneg h0]
    exact h1

/-- Witness for claim C10 at a concrete step: a leg half a day before the
anchor is appended to the current route. -/
theorem tj_c10_witness :
    groupGo 86400 [⟨"TK6", 86400, none, none⟩] [⟨"AA1", 43200, none, none⟩] =
      groupGo 86400 [⟨"TK6", 86400, none, none⟩, ⟨"AA1", 43200, none, none⟩] [] :=
  tj_c10.2 86400 [⟨"TK6", 86400, none, none⟩] [] ⟨"AA1", 43200, none, none⟩ 43200
    (by decide) (by decide) (by decide)

lemma bsCollectGo_overflow : ∀ (slots : List BsSlot) (acc : List Leg),
    (∃ s ∈ slots, bsOverflowSlot s = true) → bsCollectGo slots acc = [] := by
  intro slots
  induction slots with
  | nil =>
    intro acc h
    simp at h
  | cons s rest ih =>
    intro acc h
    obtain ⟨t, ht, hov⟩ := h
    rcases List.mem_cons.mp ht with rfl | ht2
    · unfold bsOverflowSlot at hov
      cases hfn : t.fn with
      | none => rw [hfn] at hov; simp at hov
      | some f =>
        cases hdt : t.dt with
        | none => rw [hfn, hdt] at hov; simp at hov
        | some d =>
          rw [hfn, hdt] at hov
          have hov2 : (isDigitStr (pyStrip f) && decide (10 < (pyStrip f).data.length)) = true :=
            hov
          have hne : (pyStrip f).data.isEmpty = false := by
            simp only [Bool.and_eq_true] at hov2
            have h3 := hov2.1
            unfold isDigitStr at h3
            simp only [Bool.and_eq_true, Bool.not_eq_true'] at h3
            exact h3.1
          simp only [bsCollectGo, hfn, hdt]
          rw [hne, if_neg Bool.false_ne_true, hov2, if_pos rfl]
    · have ihApp : ∀ acc2, bsCollectGo rest acc2 = [] := fun acc2 => ih acc2 ⟨t, ht2, hov⟩
      cases hfn : s.fn with
      | none => simpa [bsCollectGo, hfn] using ihApp acc
      | some f =>
        cases hdt : s.dt with
        | none => simpa [bsCollectGo, hfn, hdt] using ihApp acc
        | some d =>
          simp only [bsCollectGo, hfn, hdt]
          split
          · exact ihApp acc
          · split
            · rfl
            · split
              · exact ihApp acc
              · split
                · exact ihApp acc
                · exact ihApp _

/-- Claim C6 as amended: a BLUESTAR row containing a leg slot whose flight
number and date are both present and whose stripped flight number is
digits-only and longer than the ten-character maximum yields zero output
records: the whole row's leg list is discarded.  (A slot whose date is NA
is skipped before the overflow check and does not trigger the discard.) -/
theorem bs_c6_amended (row : BsRow) (h : ∃ s ∈ bsSlots row, bsOverflowSlot s = true) :
    bsProcessRow row = [] := by
  unfold bsProcessRow
  rw [bsCollectGo_overflow (bsSlots row) [] h]
  simp

/-- BLUESTAR row whose first slot has the oversized numeric flight number
and a present date, plus a second valid leg. -/
def bsRowStrict : BsRow :=
  ⟨some "BD", some "P", some "PNR", some "AI", some "T", some "S", some "ADT",
    some "000000000000", some "TK6", none, none,
    some 0, some 0, none, none,
    some "DEL", some "BOM", none, none, none⟩

/-- Witness for the amended claim C6: `bsRowStrict` yields zero output
records. -/
theorem bs_c6_witness : bsProcessRow bsRowStrict = [] :=
  bs_c6_amended bsRowStrict (by decide)

/-- BLUESTAR row refuting claim C6 as stated: the oversized numeric flight
number sits in a slot whose date is NA, so that slot is skipped before the
overflow check and the row still produces an output record from its other
leg. -/
def bsRowC6 : BsRow :=
  ⟨some "BD", some "P", some "PNR", some "AI", some "T", some "S", some "ADT",
    some "000000000000", some "TK6", none, none,
    none, some 0, none, none,
    some "DEL", some "BOM", none, none, none⟩

/-- Claim C6, counterexample: `bsRowC6` contains a leg whose raw flight
number is `"000000000000"` (12 digits, over the maximum), yet the row
yields one output record rather than zero. -/
theorem bs_c6_counterexample :
    bsRowC6.fn1 = some "000000000000" ∧
    isDigitStr (pyStrip "000000000000") = true ∧
    10 < (pyStrip "000000000000").data.length ∧
    bsProcessRow bsRowC6 ≠ [] := by
  refine ⟨by decide, by decide, by decide, by decide⟩

/-- Claim C4: the TBO `normalize_date` macro rejects a raw date exactly
when it fails to cast or its year falls outside
`[VALID_YEAR_MIN, VALID_YEAR_MAX]`; a date rejection drops the single
carrying leg from the cleaned leg list, and the remaining legs of the row
are processed unchanged. -/
theorem tbo_c4 :
    (∀ d : RawDate, normalize_date d = none ↔
      (tryCastTs d = none ∨
        ∃ t, tryCastTs d = some t ∧ (yearOf t < tboYearMin ∨ tboYearMax < yearOf t))) ∧
    (∀ leg : TboRawLeg, normalize_date leg.dtRaw = none → tboCleanLeg leg = none) ∧
    (∀ (pre post : List TboRawLeg) (leg : TboRawLeg), tboCleanLeg leg = none →
      tboCleanLegs (pre ++ leg :: post) = tboCleanLegs (pre ++ post)) := by
  refine ⟨?_, ?_, ?_⟩
  · intro d
    cases d with
    | null => simp [normalize_date, tryCastTs]
    | bad n => simp [normalize_date, tryCastTs]
    | ok t =>
      simp only [normalize_date, tryCastTs]
      by_cases h : yearOf t < tboYearMin ∨ tboYearMax < yearOf t
      · rw [if_pos (by simpa using h)]
        simp [h]
      · rw [if_neg (by simpa using h)]
        simp [h]
  · intro leg h
    unfold tboCleanLeg
    rw [h]
  · intro pre post leg h
    unfold tboCleanLegs
    rw [List.filterMap_append, List.filterMap_append, List.filterMap_cons_none h]

/-- Witness for claim C4: a leg whose parsed year is 2201 (outside the
window) is rejected, and dropping it leaves the surrounding cleaned legs
untouched. -/
theorem tbo_c4_witness :
    tboCleanLeg ⟨"AA1", .ok 7300000000, none, none, 2⟩ = none ∧
    tboCleanLegs [⟨"TK6", .ok 1700000000, some "DEL", some "BOM", 1⟩,
        ⟨"AA1", .ok 7300000000, none, none, 2⟩] =
      tboCleanLegs [⟨"TK6", .ok 1700000000, some "DEL", some "BOM", 1⟩] :=
  ⟨tbo_c4.2.1 ⟨"AA1", .ok 7300000000, none, none, 2⟩ (by decide),
   tbo_c4.2.2 [⟨"TK6", .ok 1700000000, some "DEL", some "BOM", 1⟩] []
     ⟨"AA1", .ok 7300000000, none, none, 2⟩ (by decide)⟩

lemma projectRoute_base {base : TjBase} {rt : List Leg} {out : TjOut}
    (h : projectRoute base rt = some out) : out.base = base := by
  unfold projectRoute at h
  cases hf : fillGo (rt.take 6) 0 (List.replicate 5 none) (List.replicate 5 none)
      (List.replicate 6 none) with
  | none => rw [hf] at h; exact absurd h (by simp)
  | some v =>
    rw [hf] at h
    obtain ⟨f, d, a⟩ := v
    obtain rfl : (⟨base, f, d, a⟩ : TjOut) = out := by simpa using h
    rfl

/-- TBO row refuting claim C8: a booking row with a present e-ticket
number and one valid leg. -/
def tboRowC8 : TboRow :=
  ⟨some "P", some "B", some "T1", some "C", some "AI", some "OW",
    some "TK6", none, none, none, none, none, none,
    .ok 1700000000, .null, .null, .null, .null, .null, .null,
    some "DEL", some "BOM", none, none, none, none, none, none⟩

/-- Claim C8, counterexample: the TBO pipeline's final SELECT emits
`NULL AS ETicketNo`, so the output record of `tboRowC8` carries no ticket
number although the input row does. -/
theorem tbo_c8_counterexample :
    tboRowC8.eticket = some "T1" ∧
    (tboProcessRow tboRowC8).map (fun r => r.eticket) = [none] := by
  refine ⟨by decide, by decide⟩

/-- Claim C8 as amended: every output record copies the non-leg booking
attributes unchanged from its input row, except that the TBO variant
replaces the ticket number by `NULL` in its final projection (the TRIPJACK
variant copies all six shared fields unchanged). -/
theorem c8_amended :
    (∀ (row : TjRow) (recs : List TjOut), tjProcessRow row = some recs →
      ∀ r ∈ recs, r.base = row.base) ∧
    (∀ (row : TboRow), ∀ r ∈ tboProcessRow row,
      r.paxName = row.paxName ∧ r.bookingRef = row.bookingRef ∧
      r.clientCode = row.clientCode ∧ r.airline = row.airline ∧
      r.journeyType = row.journeyType ∧ r.eticket = none) := by
  constructor
  · intro row recs h r hr
    unfold tjProcessRow at h
    by_cases hc : tjCollect row = []
    · rw [if_pos hc] at h
      obtain rfl : ([] : List TjOut) = recs := by simpa using h
      simp at hr
    · rw [if_neg hc] at h
      cases hd : deduplicate_flights (tjCollect row) with
      | nil => exact absurd hd (deduplicate_flights_ne_nil hc)
      | cons f fs =>
        rw [hd] at h
        simp only [group_into_routes] at h
        obtain ⟨rt, _, hrt⟩ := mapOpt_mem h r hr
        exact projectRoute_base hrt
  · intro row r hr
    unfold tboProcessRow at hr
    obtain ⟨trip, _, rfl⟩ := List.mem_map.mp hr
    exact ⟨rfl, rfl, rfl, rfl, rfl, rfl⟩

/-- TRIPJACK output record produced for `tjRowC3`. -/
def tjOutC3 : TjOut :=
  ⟨⟨some "B1", some "P", some "J", some "PNR", some "AI", some "T"⟩,
    [some "TK6", some "AA1", none, none, none],
    [some 100, some 100, none, none, none],
    [some "DEL", some "BOM", some "BLR", none, none, none]⟩

/-- TBO output record produced for `tboRowC8`. -/
def tboOutC8 : TboOut :=
  ⟨some "P", some "B", none, some "C", some "AI", some "OW",
    [some "TK6", none, none, none, none, none, none],
    [some 1700000000, none, none, none, none, none, none],
    [some "DEL", some "BOM", none, none, none, none, none, none]⟩

/-- Witness for the amended claim C8 at concrete rows: the TRIPJACK output
of `tjRowC3` keeps the row's shared fields, and the TBO output of
`tboRowC8` keeps all shared fields but the nulled ticket number. -/
theorem c8_witness :
    tjOutC3.base = tjRowC3.base ∧
    (tboOutC8.paxName = tboRowC8.paxName ∧ tboOutC8.bookingRef = tboRowC8.bookingRef ∧
      tboOutC8.clientCode = tboRowC8.clientCode ∧ tboOutC8.airline = tboRowC8.airline ∧
      tboOutC8.journeyType = tboRowC8.journeyType ∧ tboOutC8.eticket = none) :=
  ⟨c8_amended.1 tjRowC3 [tjOutC3] (by decide) tjOutC3 (by decide),
   c8_amended.2 tboRowC8 tboOutC8 (by decide)⟩

lemma insertIgnore_key_mem (sink : List TjOut) (r : TjOut) (k : Option String × Option String ×
    Option String × List (Option String) × List (Option Ts) × List (Option String))
    (hk : k ∈ sink.map natKey) : k ∈ (insertIgnore sink r).map natKey := by
  unfold insertIgnore
  split
  · exact hk
  · simp only [List.map_append, List.mem_append]
    exact Or.inl hk

lemma insertIgnore_key_self (sink : List TjOut) (r : TjOut) :
    natKey r ∈ (insertIgnore sink r).map natKey := by
  unfold insertIgnore
  split
  · assumption
  · simp

lemma insertAll_cons (sink : List TjOut) (x : TjOut) (rs : List TjOut) :
    insertAll sink (x :: rs) = insertAll (insertIgnore sink x) rs := rfl

lemma insertAll_key_mono : ∀ (rs : List TjOut) (sink : List TjOut) (k : Option String ×
    Option String × Option String × List (Option String) × List (Option Ts) ×
    List (Option String)), k ∈ sink.map natKey → k ∈ (insertAll sink rs).map natKey := by
  intro rs
  induction rs with
  | nil => intro sink k hk; exact hk
  | cons x xs ih =>
    intro sink k hk
    rw [insertAll_cons]
    exact ih _ k (insertIgnore_key_mem sink x k hk)

lemma insertAll_key_covers : ∀ (rs : List TjOut) (sink : List TjOut) (r : TjOut), r ∈ rs →
    natKey r ∈ (insertAll sink rs).map natKey := by
  intro rs
  induction rs with
  | nil => intro sink r hr; simp at hr
  | cons x xs ih =>
    intro sink r hr
    rw [insertAll_cons]
    rcases List.mem_cons.mp hr with rfl | hr
    · exact insertAll_key_mono xs _ _ (insertIgnore_key_self sink r)
    · exact ih _ r hr

lemma insertAll_noop : ∀ (rs : List TjOut) (sink : List TjOut),
    (∀ r ∈ rs, natKey r ∈ sink.map natKey) → insertAll sink rs = sink := by
  intro rs
  induction rs with
  | nil => intro sink _; rfl
  | cons x xs ih =>
    intro sink h
    rw [insertAll_cons]
    have hx : insertIgnore sink x = sink := by
      unfold insertIgnore
      rw [if_pos (h x (List.mem_cons_self x xs))]
    rw [hx]
    exact ih sink fun r hr => h r (List.mem_cons_of_mem x hr)

/-- Claim C9: running the deterministic batch pipeline twice over the same
raw-row batch and inserting both output lists into an initially empty sink
with ignore-on-conflict against the natural key yields the same final sink
as inserting once. -/
theorem tj_c9 (rows : List TjRow) (recs : List TjOut)
    (h : tjProcessBatch rows = some recs) :
    insertAll (insertAll [] recs) recs = insertAll [] recs :=
  insertAll_noop recs (insertAll [] recs)
    (fun r hr => insertAll_key_covers recs [] r hr)

/-- Single-row batch used to witness claim C9. -/
def tjRowC9 : TjRow :=
  ⟨⟨some "B9", some "P9", some "J", some "PNR9", some "AI", some "T9"⟩,
    some "TK6", none, none, none, none,
    some 0, none, none, none, none,
    some "DEL", some "BOM", none, none, none, none⟩

/-- Output record of the `tjRowC9` batch. -/
def tjOutC9 : TjOut :=
  ⟨⟨some "B9", some "P9", some "J", some "PNR9", some "AI", some "T9"⟩,
    [some "TK6", none, none, none, none],
    [some 0, none, none, none, none],
    [some "DEL", some "BOM", none, none, none, none]⟩

/-- Witness for claim C9 on a concrete one-row batch. -/
theorem tj_c9_witness :
    insertAll (insertAll [] [tjOutC9]) [tjOutC9] = insertAll [] [tjOutC9] :=
  tj_c9 [tjRowC9] [tjOutC9] (by decide)
